import Mathlib

/-!
Shallow embedding of the overlay state-synchronization core of the
live-streaming frontend: the `useOverlays` hook (src/frontend/src/hooks/useOverlays.js),
the API layer (src/frontend/src/services/api.js) and the drag clamping logic of
the video player (src/frontend/src/components/VideoPlayer.js).

Modelling conventions:
- JS objects with possibly-absent fields are structures with `Option` fields.
- Pixel coordinates and sizes are `Int` (the data model declares them integers);
  the pointer arithmetic of the drag handler, which runs on arbitrary client
  coordinates before rounding, is over `ℚ`, with JS `Math.round x = ⌊x + 1/2⌋`
  matching Mathlib's `round`.
- Each asynchronous remote call is an explicit parameter of type
  `Except ApiError α`: the operation is a pure function of the local state and
  of the outcomes of the remote calls it performs. The list of requests an
  operation issues is returned alongside the new state as a `List NetCall`.
- JS truthiness of strings (empty string is falsy) and of possibly-absent
  booleans (`undefined` is falsy) is modelled by the `truthy*` helpers.
-/

/-- `position : {x, y}` of an overlay record. -/
structure Position where
  x : Int
  y : Int
deriving DecidableEq, Repr

/-- `size : {width, height}` of an overlay record. -/
structure Size where
  width : Int
  height : Int
deriving DecidableEq, Repr

/-- An overlay record as held in the hook's `overlays` state. The `style`
mapping is presentational and never inspected by the core, so it is kept as an
opaque string; `visible` may be absent (`none`), which the code treats as
visible. -/
structure Overlay where
  _id : String
  type : String
  content : String
  position : Position
  size : Size
  style : String
  visible : Option Bool
  updated_at : String
deriving DecidableEq, Repr

/-- A partial update object (`updateData`): absent keys are `none` and leave
the corresponding field of the record untouched under JS spread merge. -/
structure OverlayPatch where
  type : Option String := none
  content : Option String := none
  position : Option Position := none
  size : Option Size := none
  style : Option String := none
  visible : Option Bool := none
deriving DecidableEq, Repr

/-- Draft position as supplied to `validateOverlay`: a coordinate is `none`
when the key is missing or not a number (`typeof !== 'number'`). -/
structure DraftPosition where
  x : Option Int
  y : Option Int
deriving DecidableEq, Repr

/-- Draft size as supplied to `validateOverlay`. -/
structure DraftSize where
  width : Option Int
  height : Option Int
deriving DecidableEq, Repr

/-- An overlay draft as passed to `createOverlay` / `validateOverlay`; every
field may be absent. -/
structure OverlayDraft where
  type : Option String
  content : Option String
  position : Option DraftPosition
  size : Option DraftSize
deriving DecidableEq, Repr

/-- An axios error as observed by `apiUtils.handleError`:
`serverError` is the value of `error.response?.data?.error` (`none` when any
link of the optional chain is missing), `message` is `error.message`. -/
structure ApiError where
  serverError : Option String
  message : Option String
deriving DecidableEq, Repr

/-- A network request issued through the axios instance. -/
inductive NetCall where
  | getAll : NetCall
  | post : OverlayDraft → NetCall
  | put : String → OverlayPatch → NetCall
  | delete : String → NetCall
deriving DecidableEq, Repr

/-- The state held by the `useOverlays` hook: `overlays`, `loading`, `error`. -/
structure HookState where
  overlays : List Overlay
  loading : Bool
  error : Option String
deriving DecidableEq, Repr

/-- JS truthiness of a possibly-absent string: `undefined` and `''` are falsy. -/
def truthyStr : Option String → Bool
  | none => false
  | some s => !s.isEmpty

/-- JS truthiness of a possibly-absent boolean: `undefined` is falsy. -/
def truthyVisible : Option Bool → Bool
  | none => false
  | some b => b

/-- `apiUtils.handleError(error, defaultMessage)`: prefer
`error.response?.data?.error`, fall back to `error.message`, fall back to the
caller-supplied default. -/
def handleError (e : ApiError) (defaultMessage : String) : String :=
  if truthyStr e.serverError then e.serverError.getD ""
  else if truthyStr e.message then e.message.getD ""
  else defaultMessage

/-- JS spread merge `{...overlay, ...updateData, updated_at: now}`. -/
def mergePatch (o : Overlay) (p : OverlayPatch) (now : String) : Overlay :=
  { _id := o._id
    type := p.type.getD o.type
    content := p.content.getD o.content
    position := p.position.getD o.position
    size := p.size.getD o.size
    style := p.style.getD o.style
    visible := match p.visible with
      | some b => some b
      | none => o.visible
    updated_at := now }

/-- `fetchOverlays`: on success replace the collection wholesale and clear the
error; on failure keep the collection and surface the extracted message. In
both branches `loading` ends false. -/
def fetchOverlays (s : HookState) (result : Except ApiError (List Overlay)) : HookState :=
  match result with
  | Except.ok data => { overlays := data, loading := false, error := none }
  | Except.error e =>
      { overlays := s.overlays, loading := false,
        error := some (handleError e "Failed to fetch overlays") }

/-- `createOverlay(overlayData)`: submit the draft (no local validation), on
success re-fetch the whole collection; on failure surface the error. The
second component is the list of network requests issued. -/
def createOverlay (s : HookState) (draft : OverlayDraft)
    (postResult : Except ApiError Unit)
    (refetch : Except ApiError (List Overlay)) : HookState × List NetCall :=
  match postResult with
  | Except.ok _ => (fetchOverlays s refetch, [NetCall.post draft, NetCall.getAll])
  | Except.error e =>
      ({ s with error := some (handleError e "Failed to create overlay") },
       [NetCall.post draft])

/-- `updateOverlay(id, updateData)`: submit the put; on success merge the patch
into every record whose `_id` matches and stamp a fresh `updated_at`; on
failure run `fetchOverlays` (with its own remote outcome `refetch`) and then
surface the update error. -/
def updateOverlay (s : HookState) (id : String) (p : OverlayPatch) (now : String)
    (putResult : Except ApiError Unit)
    (refetch : Except ApiError (List Overlay)) : HookState × List NetCall :=
  match putResult with
  | Except.ok _ =>
      ({ s with overlays :=
          s.overlays.map (fun o => if o._id = id then mergePatch o p now else o) },
       [NetCall.put id p])
  | Except.error e =>
      let s' := fetchOverlays s refetch
      ({ s' with error := some (handleError e "Failed to update overlay") },
       [NetCall.put id p, NetCall.getAll])

/-- `deleteOverlay(id)`: submit the delete; on success filter the record out
locally; on failure re-fetch and surface the error. -/
def deleteOverlay (s : HookState) (id : String)
    (delResult : Except ApiError Unit)
    (refetch : Except ApiError (List Overlay)) : HookState × List NetCall :=
  match delResult with
  | Except.ok _ =>
      ({ s with overlays := s.overlays.filter (fun o => decide (o._id ≠ id)) },
       [NetCall.delete id])
  | Except.error e =>
      let s' := fetchOverlays s refetch
      ({ s' with error := some (handleError e "Failed to delete overlay") },
       [NetCall.delete id, NetCall.getAll])

/-- One element of the `updates` argument of `batchUpdateOverlays`. -/
structure BatchItem where
  id : String
  data : OverlayPatch
deriving DecidableEq, Repr

/-- `newOverlays[findIndex(_id = id)] = merge` — replace the first record whose
`_id` matches, leave everything else (including later duplicates) in place. -/
def replaceFirst (ovs : List Overlay) (id : String) (p : OverlayPatch) (now : String) :
    List Overlay :=
  match ovs with
  | [] => []
  | o :: rest =>
      if o._id = id then mergePatch o p now :: rest
      else o :: replaceFirst rest id p now

/-- The `successfulUpdates.forEach` loop of `batchUpdateOverlays`, applied to a
starting collection. -/
def mergeAll (ovs : List Overlay) (us : List BatchItem) (now : String) : List Overlay :=
  us.foldl (fun acc u => replaceFirst acc u.id u.data now) ovs

/-- Result of `batchUpdateOverlays`: the new hook state, the per-item
`Promise.allSettled` outcomes it returns, and the requests issued. -/
structure BatchResult where
  state : HookState
  responses : List (Except ApiError Unit)
  calls : List NetCall
deriving Repr

/-- `overlayAPI.batchUpdate` + `batchUpdateOverlays`: one put per item
(`Promise.allSettled`, outcomes supplied positionally in `outcomes`); the
successful subset, in order, is merged into local state with fresh
`updated_at`; the outcomes are returned in aggregate; no re-fetch happens. -/
def batchUpdateOverlays (s : HookState) (updates : List BatchItem)
    (outcomes : List (Except ApiError Unit)) (now : String) : BatchResult :=
  let successful := ((updates.zip outcomes).filter (fun q => q.2.isOk)).map Prod.fst
  { state := { s with overlays := mergeAll s.overlays successful now }
    responses := outcomes
    calls := updates.map (fun u => NetCall.put u.id u.data) }

/-- The toggle patch `{ visible: !overlay.visible }`. -/
def togglePatch (o : Overlay) : OverlayPatch :=
  { visible := some (!truthyVisible o.visible) }

/-- `toggleOverlayVisibility(id)`: silently no-op when no local record has the
id; otherwise delegate to `updateOverlay(id, {visible: !overlay.visible})`. -/
def toggleOverlayVisibility (s : HookState) (id : String) (now : String)
    (putResult : Except ApiError Unit)
    (refetch : Except ApiError (List Overlay)) : HookState × List NetCall :=
  match s.overlays.find? (fun o => decide (o._id = id)) with
  | none => (s, [])
  | some overlay => updateOverlay s id (togglePatch overlay) now putResult refetch

/-- `getVisibleOverlays` / the render filter `overlay.visible !== false`. -/
def getVisibleOverlays (s : HookState) : List Overlay :=
  s.overlays.filter (fun o => decide (o.visible ≠ some false))

/-- JS `v < 0` where `v` may be `undefined` (comparison with `undefined` is false). -/
def jsLtZero : Option Int → Bool
  | none => false
  | some v => decide (v < 0)

/-- JS `v <= 0` where `v` may be `undefined`. -/
def jsLeZero : Option Int → Bool
  | none => false
  | some v => decide (v ≤ 0)

/-- JS `v > bound` where `v` may be `undefined`. -/
def jsGtBound (bound : Int) : Option Int → Bool
  | none => false
  | some v => decide (bound < v)

/-- The per-field error map produced by `validateOverlay`. -/
structure ValidationErrors where
  type : Option String := none
  content : Option String := none
  position : Option String := none
  size : Option String := none
deriving DecidableEq, Repr

/-- Return value of `validateOverlay`. -/
structure ValidationResult where
  isValid : Bool
  errors : ValidationErrors
deriving DecidableEq, Repr

/-- `validateOverlay(overlayData)`: the stateless per-field validation of the
hook. Later checks on the same field overwrite earlier ones, exactly as the
sequential JS assignments do. -/
def validateOverlay (d : OverlayDraft) : ValidationResult :=
  let typeErr : Option String :=
    match d.type with
    | none => some "Type must be either \"text\" or \"logo\""
    | some t =>
        if t.isEmpty ∨ (t ≠ "text" ∧ t ≠ "logo") then
          some "Type must be either \"text\" or \"logo\""
        else none
  let contentErr : Option String :=
    if truthyStr d.content then none else some "Content is required"
  let posErr : Option String :=
    match d.position with
    | none => some "Valid position coordinates are required"
    | some q =>
        let structural : Option String :=
          if q.x.isNone ∨ q.y.isNone then some "Valid position coordinates are required"
          else none
        if jsLtZero q.x ∨ jsLtZero q.y then
          some "Position coordinates must be non-negative"
        else structural
  let sizeErr : Option String :=
    match d.size with
    | none => some "Valid size dimensions are required"
    | some z =>
        let structural : Option String :=
          if z.width.isNone ∨ z.height.isNone then some "Valid size dimensions are required"
          else none
        let afterPositive : Option String :=
          if jsLeZero z.width ∨ jsLeZero z.height then
            some "Size dimensions must be positive"
          else structural
        if jsGtBound 1920 z.width ∨ jsGtBound 1080 z.height then
          some "Size dimensions are too large"
        else afterPositive
  { isValid := typeErr.isNone && contentErr.isNone && posErr.isNone && sizeErr.isNone
    errors := { type := typeErr, content := contentErr,
                position := posErr, size := sizeErr } }

/-- The position computation of `handleMouseMove`: offset-corrected pointer
position, clamped by `Math.max(0, Math.min(new, rect - overlaySize))`, then
`Math.round`ed componentwise. -/
def constrainedPosition (clientX clientY rectLeft rectTop offsetX offsetY
    rectWidth rectHeight : ℚ) (ovSize : Size) : Position :=
  let newX := clientX - rectLeft - offsetX
  let newY := clientY - rectTop - offsetY
  let maxX := rectWidth - (ovSize.width : ℚ)
  let maxY := rectHeight - (ovSize.height : ℚ)
  let constrainedX := max 0 (min newX maxX)
  let constrainedY := max 0 (min newY maxY)
  { x := round constrainedX, y := round constrainedY }

/-- `handleMouseMove`: no-op without an active drag or when the dragged id is
no longer in the collection; otherwise hand the clamped, rounded position to
the update path. -/
def handleMouseMove (draggedOverlay : Option String) (isDragging : Bool)
    (overlays : List Overlay)
    (clientX clientY rectLeft rectTop offsetX offsetY rectWidth rectHeight : ℚ) :
    Option (String × Position) :=
  match draggedOverlay with
  | none => none
  | some id =>
      if !isDragging then none
      else
        match overlays.find? (fun o => decide (o._id = id)) with
        | none => none
        | some o =>
            some (id, constrainedPosition clientX clientY rectLeft rectTop
                    offsetX offsetY rectWidth rectHeight o.size)

/-- The Data Model bounds on a single overlay record. -/
def overlayOK (o : Overlay) : Prop :=
  0 < o.size.width ∧ o.size.width ≤ 1920 ∧
  0 < o.size.height ∧ o.size.height ≤ 1080 ∧
  0 ≤ o.position.x ∧ 0 ≤ o.position.y

instance (o : Overlay) : Decidable (overlayOK o) := by
  unfold overlayOK; infer_instance

/-- The bounds hold of every record in the hook state. -/
def stateOK (s : HookState) : Prop := ∀ o ∈ s.overlays, overlayOK o

instance (s : HookState) : Decidable (stateOK s) := by
  unfold stateOK; infer_instance

/-- A patch is within bounds: whatever `position`/`size` it carries satisfies
the Data Model ranges. -/
def patchOK (p : OverlayPatch) : Prop :=
  (∀ z ∈ p.size, 0 < z.width ∧ z.width ≤ 1920 ∧ 0 < z.height ∧ z.height ≤ 1080) ∧
  (∀ q ∈ p.position, 0 ≤ q.x ∧ 0 ≤ q.y)

instance (p : OverlayPatch) : Decidable (patchOK p) := by
  unfold patchOK; infer_instance

/-- A sample in-bounds overlay used by the closed example theorems. -/
def exOverlay : Overlay :=
  { _id := "A", type := "text", content := "hello",
    position := { x := 10, y := 10 }, size := { width := 100, height := 50 },
    style := "", visible := some true, updated_at := "t0" }

/-- The invalid draft of the spec's Validation property:
`{type:'logo', content:'', position:{x:1,y:1}, size:{width:100,height:100}}`. -/
def specDraft : OverlayDraft :=
  { type := some "logo", content := some "",
    position := some { x := some 1, y := some 1 },
    size := some { width := some 100, height := some 100 } }

/-- A patch whose position is out of bounds (negative x). -/
def badPatch : OverlayPatch := { position := some { x := -5, y := 0 } }

/-- A second in-bounds overlay with a distinct id. -/
def exOverlayB : Overlay := { exOverlay with _id := "B" }

/-- A third in-bounds overlay with a distinct id. -/
def exOverlayC : Overlay := { exOverlay with _id := "C" }

/-- A three-record state used by the batch example. -/
def batchState : HookState :=
  { overlays := [exOverlay, exOverlayB, exOverlayC]
    loading := false
    error := none }

/-- Three batch update requests, one per record. -/
def batchUpdates : List BatchItem :=
  [{ id := "A", data := { position := some { x := 1, y := 1 } } },
   { id := "B", data := { position := some { x := 2, y := 2 } } },
   { id := "C", data := { position := some { x := 3, y := 3 } } }]

/-- Outcomes where the second request is rejected by the remote store. -/
def batchOutcomes : List (Except ApiError Unit) :=
  [Except.ok (), Except.error { serverError := some "rejected", message := none },
   Except.ok ()]

/-- Pointwise form of the batch merge loop: fold the batch items over a single
record, merging whenever the id matches. Used to state what `mergeAll` does to
each position of the collection. -/
def applyBatch (o : Overlay) (us : List BatchItem) (now : String) : Overlay :=
  us.foldl (fun r u => if r._id = u.id then mergePatch r u.data now else r) o

theorem mergePatch_id (o : Overlay) (p : OverlayPatch) (now : String) :
    (mergePatch o p now)._id = o._id := rfl

theorem mergePatch_updated_at (o : Overlay) (p : OverlayPatch) (now : String) :
    (mergePatch o p now).updated_at = now := rfl

theorem mergePatch_ok {o : Overlay} {p : OverlayPatch} (now : String)
    (ho : overlayOK o) (hp : patchOK p) : overlayOK (mergePatch o p now) := by
  obtain ⟨hw1, hw2, hh1, hh2, hx, hy⟩ := ho
  have hsize : 0 < (p.size.getD o.size).width ∧ (p.size.getD o.size).width ≤ 1920 ∧
      0 < (p.size.getD o.size).height ∧ (p.size.getD o.size).height ≤ 1080 := by
    cases hs : p.size with
    | none => exact ⟨hw1, hw2, hh1, hh2⟩
    | some z => simpa using hp.1 z (by simp [hs])
  have hpos : 0 ≤ (p.position.getD o.position).x ∧ 0 ≤ (p.position.getD o.position).y := by
    cases hq : p.position with
    | none => exact ⟨hx, hy⟩
    | some q => simpa using hp.2 q (by simp [hq])
  exact ⟨hsize.1, hsize.2.1, hsize.2.2.1, hsize.2.2.2, hpos.1, hpos.2⟩

theorem map_update_of_forall_ne {ovs : List Overlay} {id : String}
    (p : OverlayPatch) (now : String) (h : ∀ o ∈ ovs, o._id ≠ id) :
    ovs.map (fun o => if o._id = id then mergePatch o p now else o) = ovs := by
  induction ovs with
  | nil => rfl
  | cons a rest ih =>
      simp only [List.map_cons]
      rw [if_neg (h a (by simp)), ih (fun o ho => h o (by simp [ho]))]

theorem replaceFirst_map_id (ovs : List Overlay) (id : String) (p : OverlayPatch)
    (now : String) :
    (replaceFirst ovs id p now).map Overlay._id = ovs.map Overlay._id := by
  induction ovs with
  | nil => rfl
  | cons a rest ih =>
      by_cases h : a._id = id
      · simp [replaceFirst, h, mergePatch_id]
      · simp [replaceFirst, h, ih]

theorem replaceFirst_eq_map {ovs : List Overlay} {id : String} {p : OverlayPatch}
    {now : String} (h : (ovs.map Overlay._id).Nodup) :
    replaceFirst ovs id p now =
      ovs.map (fun o => if o._id = id then mergePatch o p now else o) := by
  induction ovs with
  | nil => rfl
  | cons a rest ih =>
      simp only [List.map_cons, List.nodup_cons] at h
      by_cases ha : a._id = id
      · have hrest : ∀ o ∈ rest, o._id ≠ id := fun o ho hoid =>
          h.1 (List.mem_map.mpr ⟨o, ho, hoid.trans ha.symm⟩)
        simp only [replaceFirst, if_pos ha, List.map_cons]
        rw [map_update_of_forall_ne _ _ hrest]
      · simp only [replaceFirst, if_neg ha, List.map_cons]
        rw [ih h.2]

theorem mergeAll_eq_map {ovs : List Overlay} {us : List BatchItem} {now : String}
    (h : (ovs.map Overlay._id).Nodup) :
    mergeAll ovs us now = ovs.map (fun o => applyBatch o us now) := by
  induction us generalizing ovs with
  | nil =>
      simp only [mergeAll, List.foldl_nil, applyBatch]
      exact (List.map_id' ovs).symm
  | cons u rest ih =>
      have h2 : ((replaceFirst ovs u.id u.data now).map Overlay._id).Nodup := by
        rw [replaceFirst_map_id]; exact h
      calc mergeAll ovs (u :: rest) now
          = mergeAll (replaceFirst ovs u.id u.data now) rest now := rfl
        _ = (replaceFirst ovs u.id u.data now).map (fun o => applyBatch o rest now) :=
              ih h2
        _ = (ovs.map (fun o => if o._id = u.id then mergePatch o u.data now else o)).map
              (fun o => applyBatch o rest now) := by rw [replaceFirst_eq_map h]
        _ = ovs.map (fun o => applyBatch o (u :: rest) now) := by
              rw [List.map_map]; rfl

theorem applyBatch_of_forall_ne {o : Overlay} {us : List BatchItem} {now : String}
    (h : ∀ u ∈ us, o._id ≠ u.id) : applyBatch o us now = o := by
  induction us with
  | nil => rfl
  | cons u rest ih =>
      show applyBatch (if o._id = u.id then mergePatch o u.data now else o) rest now = o
      rw [if_neg (h u (by simp))]
      exact ih (fun v hv => h v (by simp [hv]))

theorem applyBatch_find {o : Overlay} {us : List BatchItem} {now : String}
    (h : (us.map BatchItem.id).Nodup) :
    applyBatch o us now =
      match us.find? (fun u => decide (o._id = u.id)) with
      | none => o
      | some u => mergePatch o u.data now := by
  induction us with
  | nil => rfl
  | cons u rest ih =>
      simp only [List.map_cons, List.nodup_cons] at h
      by_cases hu : o._id = u.id
      · rw [List.find?_cons_of_pos _ (by simpa using hu)]
        show applyBatch (if o._id = u.id then mergePatch o u.data now else o) rest now =
          mergePatch o u.data now
        rw [if_pos hu]
        refine applyBatch_of_forall_ne ?_
        intro v hv hvid
        rw [mergePatch_id, hu] at hvid
        exact h.1 (List.mem_map.mpr ⟨v, hv, hvid.symm⟩)
      · rw [List.find?_cons_of_neg _ (by simpa using hu)]
        show applyBatch (if o._id = u.id then mergePatch o u.data now else o) rest now = _
        rw [if_neg hu]
        exact ih h.2

theorem successful_sublist {updates : List BatchItem}
    {outcomes : List (Except ApiError Unit)}
    (hlen : outcomes.length = updates.length) :
    (((updates.zip outcomes).filter (fun q => q.2.isOk)).map Prod.fst).Sublist updates := by
  have h1 : ((updates.zip outcomes).filter (fun q => q.2.isOk)).Sublist
      (updates.zip outcomes) := List.filter_sublist _
  have h2 := h1.map Prod.fst
  rwa [List.map_fst_zip updates outcomes (le_of_eq hlen.symm)] at h2

theorem replaceFirst_ok {ovs : List Overlay} {id : String} {p : OverlayPatch}
    {now : String} (ho : ∀ o ∈ ovs, overlayOK o) (hp : patchOK p) :
    ∀ o ∈ replaceFirst ovs id p now, overlayOK o := by
  induction ovs with
  | nil => intro o ho'; simp [replaceFirst] at ho'
  | cons a rest ih =>
      intro o ho'
      by_cases ha : a._id = id
      · simp only [replaceFirst, if_pos ha, List.mem_cons] at ho'
        rcases ho' with h1 | h2
        · subst h1; exact mergePatch_ok now (ho a (by simp)) hp
        · exact ho o (by simp [h2])
      · simp only [replaceFirst, if_neg ha, List.mem_cons] at ho'
        rcases ho' with h1 | h2
        · subst h1; exact ho o (by simp)
        · exact ih (fun x hx => ho x (by simp [hx])) o h2

theorem mergeAll_ok {ovs : List Overlay} {us : List BatchItem} {now : String}
    (ho : ∀ o ∈ ovs, overlayOK o) (hu : ∀ u ∈ us, patchOK u.data) :
    ∀ o ∈ mergeAll ovs us now, overlayOK o := by
  induction us generalizing ovs with
  | nil => exact ho
  | cons u rest ih =>
      have hstep : ∀ o ∈ replaceFirst ovs u.id u.data now, overlayOK o :=
        replaceFirst_ok ho (hu u (by simp))
      exact ih hstep (fun v hv => hu v (by simp [hv]))

/-- C1: a remotely successful `update(id, patch)` leaves each matching local
record equal to the old record merged with the patch plus a freshly stamped
`updated_at` (in particular, updating position {10,10} with {x:50,y:60} yields
position {50,60}), while a failing update replaces the collection with the
result of the reconciling `fetchAll()`. -/
theorem update_optimistic_merge_or_refetch (s : HookState) (id : String)
    (p : OverlayPatch) (now : String) (e : ApiError)
    (r : Except ApiError (List Overlay)) (fetched : List Overlay) (i : Nat) :
    ((updateOverlay s id p now (Except.ok ()) r).1.overlays[i]? =
      (s.overlays[i]?).map (fun o => if o._id = id then mergePatch o p now else o)) ∧
    (∀ o : Overlay, (mergePatch o p now).updated_at = now) ∧
    (updateOverlay s id p now (Except.error e) (Except.ok fetched)).1.overlays =
      fetched ∧
    (updateOverlay ⟨[exOverlay], false, none⟩ "A"
        { position := some { x := 50, y := 60 } } "t1"
        (Except.ok ()) (Except.ok [])).1.overlays =
      [{ exOverlay with position := { x := 50, y := 60 }, updated_at := "t1" }] := by
  refine ⟨?_, fun o => rfl, rfl, by decide⟩
  simp [updateOverlay]

/-- C6: a failing `fetchAll()` leaves the previous collection fully in place
and surfaces the extracted human-readable message; a successful one replaces
the collection wholesale. -/
theorem fetch_failure_keeps_collection (s : HookState) (e : ApiError)
    (data : List Overlay) :
    (fetchOverlays s (Except.error e)).overlays = s.overlays ∧
    (fetchOverlays s (Except.error e)).error =
      some (handleError e "Failed to fetch overlays") ∧
    (fetchOverlays s (Except.ok data)).overlays = data :=
  ⟨rfl, rfl, rfl⟩

/-- C8: every surfaced remote error message follows the single extraction
rule: a truthy structured server message wins, else a truthy transport
message, else the caller-supplied default. -/
theorem error_message_extraction_rule (e : ApiError) (d : String) :
    (∀ m : String, e.serverError = some m → m.isEmpty = false →
      handleError e d = m) ∧
    (truthyStr e.serverError = false →
      ∀ m : String, e.message = some m → m.isEmpty = false →
      handleError e d = m) ∧
    (truthyStr e.serverError = false → truthyStr e.message = false →
      handleError e d = d) := by
  refine ⟨?_, ?_, ?_⟩
  · intro m hm hne
    simp [handleError, truthyStr, hm, hne]
  · intro h1 m hm hne
    unfold handleError
    rw [h1]
    simp [truthyStr, hm, hne]
  · intro h1 h2
    simp [handleError, h1, h2]

/-- Witness for C8: the three branches of the extraction rule at concrete
errors. -/
theorem error_message_extraction_rule_witness :
    handleError { serverError := some "srv", message := some "msg" } "dflt" = "srv" ∧
    handleError { serverError := none, message := some "msg" } "dflt" = "msg" ∧
    handleError { serverError := some "", message := none } "dflt" = "dflt" :=
  ⟨(error_message_extraction_rule { serverError := some "srv", message := some "msg" }
      "dflt").1 "srv" rfl rfl,
   (error_message_extraction_rule { serverError := none, message := some "msg" }
      "dflt").2.1 rfl "msg" rfl rfl,
   (error_message_extraction_rule { serverError := some "", message := none }
      "dflt").2.2 (by decide) rfl⟩

/-- C10: `update(id, patch)` for an id absent from the local collection still
issues the remote put and, when it succeeds, leaves the hook state (collection,
loading flag and error) entirely unchanged. -/
theorem update_absent_id_noop (s : HookState) (id : String) (p : OverlayPatch)
    (now : String) (r : Except ApiError (List Overlay))
    (h : ∀ o ∈ s.overlays, o._id ≠ id) :
    (updateOverlay s id p now (Except.ok ()) r).1 = s ∧
    (updateOverlay s id p now (Except.ok ()) r).2 = [NetCall.put id p] ∧
    ∀ pr : Except ApiError Unit,
      NetCall.put id p ∈ (updateOverlay s id p now pr r).2 := by
  refine ⟨?_, rfl, ?_⟩
  · show ({ s with overlays :=
        s.overlays.map (fun o => if o._id = id then mergePatch o p now else o) } :
      HookState) = s
    rw [map_update_of_forall_ne p now h]
  · intro pr; cases pr <;> simp [updateOverlay]

/-- Witness for C10: updating an id not present in a one-record collection
changes nothing locally. -/
theorem update_absent_id_noop_witness :
    (∀ o ∈ ({ overlays := [exOverlay], loading := false, error := none } :
        HookState).overlays, o._id ≠ "Z") ∧
    (updateOverlay { overlays := [exOverlay], loading := false, error := none }
        "Z" badPatch "t1" (Except.ok ()) (Except.ok [])).1 =
      { overlays := [exOverlay], loading := false, error := none } :=
  ⟨by decide,
   (update_absent_id_noop { overlays := [exOverlay], loading := false, error := none }
      "Z" badPatch "t1" (Except.ok []) (by decide)).1⟩

/-- Counterexample to C2: starting from an in-bounds collection, a remotely
successful `update` whose patch carries a negative x coordinate leaves a record
violating the bounds, so the invariant does not hold after every successful
store operation. -/
theorem update_breaks_bounds_invariant :
    stateOK { overlays := [exOverlay], loading := false, error := none } ∧
    ¬ stateOK (updateOverlay
        { overlays := [exOverlay], loading := false, error := none }
        "A" badPatch "t1" (Except.ok ()) (Except.ok [])).1 := by decide

/-- C2 (amended): the bounds invariant is preserved by every successful store
operation provided the data entering the store is itself in bounds: every
overlay delivered by `fetchAll` and every patch carried by an `update` /
`batchUpdate` satisfies the Data Model ranges. `delete` and `toggleVisibility`
preserve it unconditionally. -/
theorem store_ops_preserve_bounds_invariant (s : HookState) (hs : stateOK s) :
    (∀ data : List Overlay, (∀ o ∈ data, overlayOK o) →
      stateOK (fetchOverlays s (Except.ok data))) ∧
    (∀ (draft : OverlayDraft) (data : List Overlay), (∀ o ∈ data, overlayOK o) →
      stateOK (createOverlay s draft (Except.ok ()) (Except.ok data)).1) ∧
    (∀ (id : String) (p : OverlayPatch) (now : String)
        (r : Except ApiError (List Overlay)), patchOK p →
      stateOK (updateOverlay s id p now (Except.ok ()) r).1) ∧
    (∀ (id : String) (r : Except ApiError (List Overlay)),
      stateOK (deleteOverlay s id (Except.ok ()) r).1) ∧
    (∀ (updates : List BatchItem) (outcomes : List (Except ApiError Unit))
        (now : String), (∀ u ∈ updates, patchOK u.data) →
      stateOK (batchUpdateOverlays s updates outcomes now).state) ∧
    (∀ (id now : String) (r : Except ApiError (List Overlay)),
      stateOK (toggleOverlayVisibility s id now (Except.ok ()) r).1) := by
  refine ⟨?_, ?_, ?_, ?_, ?_, ?_⟩
  · intro data h o ho; exact h o ho
  · intro draft data h o ho; exact h o ho
  · intro id p now r hp o ho
    simp only [updateOverlay, List.mem_map] at ho
    obtain ⟨y, hy, hxy⟩ := ho
    by_cases hyid : y._id = id
    · rw [if_pos hyid] at hxy; rw [← hxy]; exact mergePatch_ok now (hs y hy) hp
    · rw [if_neg hyid] at hxy; rw [← hxy]; exact hs y hy
  · intro id r o ho
    simp only [deleteOverlay, List.mem_filter] at ho
    exact hs o ho.1
  · intro updates outcomes now hp o ho
    simp only [batchUpdateOverlays] at ho
    refine mergeAll_ok hs ?_ o ho
    intro u hu
    simp only [List.mem_map] at hu
    obtain ⟨⟨u', oc⟩, hq, huq⟩ := hu
    have hz := (List.mem_filter.mp hq).1
    have := (List.of_mem_zip hz).1
    rw [← huq]
    exact hp u' this
  · intro id now r
    cases hf : s.overlays.find? (fun x => decide (x._id = id)) with
    | none =>
        unfold toggleOverlayVisibility
        rw [hf]
        exact hs
    | some o =>
        unfold toggleOverlayVisibility
        rw [hf]
        intro x hx
        simp only [updateOverlay, List.mem_map] at hx
        obtain ⟨y, hy, hxy⟩ := hx
        by_cases hyid : y._id = id
        · rw [if_pos hyid] at hxy; rw [← hxy]
          refine mergePatch_ok now (hs y hy) ?_
          exact ⟨by simp [togglePatch], by simp [togglePatch]⟩
        · rw [if_neg hyid] at hxy; rw [← hxy]; exact hs y hy

/-- Witness for the amended C2: a concrete in-bounds state and in-bounds patch
stay in bounds through a successful update. -/
theorem store_ops_preserve_bounds_invariant_witness :
    stateOK { overlays := [exOverlay], loading := false, error := none } ∧
    patchOK { position := some { x := 50, y := 60 } } ∧
    stateOK (updateOverlay { overlays := [exOverlay], loading := false, error := none }
        "A" { position := some { x := 50, y := 60 } } "t1" (Except.ok ())
        (Except.ok [])).1 :=
  ⟨by decide, by decide,
   (store_ops_preserve_bounds_invariant
      { overlays := [exOverlay], loading := false, error := none }
      (by decide)).2.2.1
      "A" { position := some { x := 50, y := 60 } } "t1" (Except.ok []) (by decide)⟩

/-- Counterexample to C3: the spec's invalid draft (empty content) is indeed
rejected by the validation utility, yet `create` on that draft still issues
network requests (the POST, in either remote outcome), so "never issues any
network call" fails: `create` does not run the validation. -/
theorem create_submits_invalid_draft :
    (validateOverlay specDraft).isValid = false ∧
    (validateOverlay specDraft).errors.content = some "Content is required" ∧
    NetCall.post specDraft ∈
      (createOverlay { overlays := [], loading := false, error := none }
        specDraft (Except.ok ()) (Except.ok [])).2 ∧
    NetCall.post specDraft ∈
      (createOverlay { overlays := [], loading := false, error := none }
        specDraft (Except.error { serverError := none, message := some "boom" })
        (Except.ok [])).2 := by decide

/-- C3 (amended): the per-field validation is real but lives in the separate
`validateOverlay` utility, which rejects every draft with falsy content with a
`content` error and touches no network; `createOverlay` itself submits every
draft to the remote store unvalidated (its first request is always the POST),
followed by a full re-fetch on success. -/
theorem validate_rejects_empty_content_create_always_submits :
    (∀ d : OverlayDraft, truthyStr d.content = false →
      (validateOverlay d).isValid = false ∧
      (validateOverlay d).errors.content = some "Content is required") ∧
    (∀ (s : HookState) (d : OverlayDraft) (pr : Except ApiError Unit)
        (rf : Except ApiError (List Overlay)),
      (createOverlay s d pr rf).2.head? = some (NetCall.post d)) ∧
    (∀ (s : HookState) (d : OverlayDraft) (rf : Except ApiError (List Overlay)),
      (createOverlay s d (Except.ok ()) rf).2 =
        [NetCall.post d, NetCall.getAll]) := by
  refine ⟨?_, ?_, ?_⟩
  · intro d h
    constructor
    · simp [validateOverlay, h]
    · simp [validateOverlay, h]
  · intro s d pr rf; cases pr <;> rfl
  · intro s d rf; rfl

/-- Witness for the amended C3: the spec's draft has falsy content and is
rejected with the `content` message. -/
theorem validate_rejects_empty_content_witness :
    truthyStr specDraft.content = false ∧
    (validateOverlay specDraft).isValid = false ∧
    (validateOverlay specDraft).errors.content = some "Content is required" :=
  ⟨by decide,
   (validate_rejects_empty_content_create_always_submits.1 specDraft (by decide)).1,
   (validate_rejects_empty_content_create_always_submits.1 specDraft (by decide)).2⟩

/-- C4: batch updates are isolated per item: the aggregate result returns the
per-item outcomes unchanged, no re-fetch request is issued, the error state is
untouched, and the new collection is the old one with exactly the successful
requests merged (first match by id, fresh `updated_at` via `mergePatch`) and
every record not targeted by a successful request left at its pre-call value. -/
theorem batchUpdate_partial_isolation (s : HookState) (updates : List BatchItem)
    (outcomes : List (Except ApiError Unit)) (now : String)
    (hlen : outcomes.length = updates.length)
    (hids : (s.overlays.map Overlay._id).Nodup)
    (huids : (updates.map BatchItem.id).Nodup) :
    (batchUpdateOverlays s updates outcomes now).responses = outcomes ∧
    NetCall.getAll ∉ (batchUpdateOverlays s updates outcomes now).calls ∧
    (batchUpdateOverlays s updates outcomes now).state.error = s.error ∧
    (batchUpdateOverlays s updates outcomes now).state.overlays =
      s.overlays.map (fun o =>
        match (((updates.zip outcomes).filter (fun q => q.2.isOk)).map Prod.fst).find?
            (fun u => decide (o._id = u.id)) with
        | none => o
        | some u => mergePatch o u.data now) := by
  refine ⟨rfl, ?_, rfl, ?_⟩
  · intro hmem
    simp only [batchUpdateOverlays, List.mem_map] at hmem
    obtain ⟨u, _, h⟩ := hmem
    exact NetCall.noConfusion h
  · have hsub := @successful_sublist updates outcomes hlen
    have hnodupS :
        (((((updates.zip outcomes).filter (fun q => q.2.isOk)).map Prod.fst).map
          BatchItem.id)).Nodup :=
      (List.Sublist.map BatchItem.id hsub).nodup huids
    show mergeAll s.overlays
        (((updates.zip outcomes).filter (fun q => q.2.isOk)).map Prod.fst) now = _
    rw [mergeAll_eq_map hids]
    refine List.map_congr_left ?_
    intro o _
    exact applyBatch_find hnodupS

/-- Witness for C4: three requests over three distinct records with the second
rejected satisfy the hypotheses, and the aggregate reports the outcomes. -/
theorem batchUpdate_partial_isolation_witness :
    batchOutcomes.length = batchUpdates.length ∧
    (batchState.overlays.map Overlay._id).Nodup ∧
    (batchUpdates.map BatchItem.id).Nodup ∧
    (batchUpdateOverlays batchState batchUpdates batchOutcomes "t1").responses =
      batchOutcomes :=
  ⟨rfl, by decide, by decide,
   (batchUpdate_partial_isolation batchState batchUpdates batchOutcomes "t1"
      rfl (by decide) (by decide)).1⟩

/-- C5: each drag move passes to the update path exactly the offset-corrected
pointer position clamped componentwise to [0, container − overlay] and then
rounded; a computed newX of 750 in an 800-wide container with a 200-wide
overlay gives 600, a computed newX of −30 gives 0, and an overlay larger than
the container pins to coordinate 0. -/
theorem drag_clamp_law (clientX clientY rectLeft rectTop offsetX offsetY
    rectWidth rectHeight : ℚ) (z : Size) :
    ((constrainedPosition clientX clientY rectLeft rectTop offsetX offsetY
        rectWidth rectHeight z).x =
      round (max 0 (min (clientX - rectLeft - offsetX)
        (rectWidth - (z.width : ℚ))))) ∧
    ((constrainedPosition clientX clientY rectLeft rectTop offsetX offsetY
        rectWidth rectHeight z).y =
      round (max 0 (min (clientY - rectTop - offsetY)
        (rectHeight - (z.height : ℚ))))) ∧
    (rectWidth < (z.width : ℚ) →
      (constrainedPosition clientX clientY rectLeft rectTop offsetX offsetY
        rectWidth rectHeight z).x = 0) ∧
    (rectHeight < (z.height : ℚ) →
      (constrainedPosition clientX clientY rectLeft rectTop offsetX offsetY
        rectWidth rectHeight z).y = 0) ∧
    constrainedPosition 750 0 0 0 0 0 800 600 { width := 200, height := 100 } =
      { x := 600, y := 0 } ∧
    constrainedPosition (-30) 0 0 0 0 0 800 600 { width := 200, height := 100 } =
      { x := 0, y := 0 } := by
  refine ⟨rfl, rfl, ?_, ?_,
    by simp only [constrainedPosition, Position.mk.injEq]; constructor <;>
      norm_num [round_eq, min_def, max_def],
    by simp only [constrainedPosition, Position.mk.injEq]; constructor <;>
      norm_num [round_eq, min_def, max_def]⟩
  · intro h
    have h1 : min (clientX - rectLeft - offsetX) (rectWidth - (z.width : ℚ)) ≤ 0 :=
      le_trans (min_le_right _ _) (by linarith)
    show round (max 0 (min (clientX - rectLeft - offsetX)
      (rectWidth - (z.width : ℚ)))) = 0
    rw [max_eq_left h1, round_zero]
  · intro h
    have h1 : min (clientY - rectTop - offsetY) (rectHeight - (z.height : ℚ)) ≤ 0 :=
      le_trans (min_le_right _ _) (by linarith)
    show round (max 0 (min (clientY - rectTop - offsetY)
      (rectHeight - (z.height : ℚ)))) = 0
    rw [max_eq_left h1, round_zero]

/-- Witness for C5: a 200-wide, 300-tall overlay in a 100×100 container pins
to the origin. -/
theorem drag_clamp_law_witness :
    ((100 : ℚ) < (((200 : Int) : ℚ)) ∧
      (constrainedPosition 5 7 0 0 0 0 100 100
        { width := 200, height := 300 }).x = 0) ∧
    (constrainedPosition 5 7 0 0 0 0 100 100
        { width := 200, height := 300 }).y = 0 :=
  ⟨⟨by norm_num,
    (drag_clamp_law 5 7 0 0 0 0 100 100 { width := 200, height := 300 }).2.2.1
      (by norm_num)⟩,
   (drag_clamp_law 5 7 0 0 0 0 100 100 { width := 200, height := 300 }).2.2.2.1
      (by norm_num)⟩

/-- C7: toggling a locally present record with `visible = true` and remote
success flips exactly that record to `visible = false` with only `updated_at`
otherwise changed, leaves every other record untouched and the error state
unchanged, and issues the single put `{visible: false}`; toggling an id absent
from the local collection is a silent no-op with no network request. -/
theorem toggle_visibility_spec (s : HookState) (id now : String)
    (r : Except ApiError (List Overlay)) :
    (∀ o : Overlay, s.overlays.find? (fun x => decide (x._id = id)) = some o →
      o.visible = some true →
      (toggleOverlayVisibility s id now (Except.ok ()) r).1.overlays =
        s.overlays.map (fun x => if x._id = id then
          { x with visible := some false, updated_at := now } else x) ∧
      (toggleOverlayVisibility s id now (Except.ok ()) r).1.error = s.error ∧
      (toggleOverlayVisibility s id now (Except.ok ()) r).2 =
        [NetCall.put id { visible := some false }]) ∧
    (s.overlays.find? (fun x => decide (x._id = id)) = none →
      ∀ (pr : Except ApiError Unit) (rf : Except ApiError (List Overlay)),
        toggleOverlayVisibility s id now pr rf = (s, [])) := by
  constructor
  · intro o hf hv
    have hp : togglePatch o = { visible := some false } := by
      simp [togglePatch, truthyVisible, hv]
    unfold toggleOverlayVisibility
    rw [hf]
    dsimp only
    rw [hp]
    refine ⟨?_, rfl, rfl⟩
    show s.overlays.map (fun x => if x._id = id then
        mergePatch x { visible := some false } now else x) = _
    have hfun : ∀ x : Overlay, mergePatch x { visible := some false } now =
        { x with visible := some false, updated_at := now } := by
      intro x; simp [mergePatch]
    simp only [hfun]
  · intro hf pr rf
    unfold toggleOverlayVisibility
    rw [hf]

/-- Witness for C7: toggling the sample visible record flips it off; toggling
over the empty collection does nothing. -/
theorem toggle_visibility_spec_witness :
    (([exOverlay] : List Overlay).find? (fun x => decide (x._id = "A")) =
        some exOverlay) ∧
    exOverlay.visible = some true ∧
    (toggleOverlayVisibility { overlays := [exOverlay], loading := false, error := none }
        "A" "t1" (Except.ok ()) (Except.ok [])).1.overlays =
      ([exOverlay] : List Overlay).map (fun x => if x._id = "A" then
        { x with visible := some false, updated_at := "t1" } else x) ∧
    toggleOverlayVisibility { overlays := [], loading := false, error := none }
        "A" "t1" (Except.ok ()) (Except.ok []) =
      ({ overlays := [], loading := false, error := none }, []) :=
  ⟨by decide, rfl,
   ((toggle_visibility_spec
      { overlays := [exOverlay], loading := false, error := none }
      "A" "t1" (Except.ok [])).1 exOverlay (by decide) rfl).1,
   (toggle_visibility_spec { overlays := [], loading := false, error := none }
      "A" "t1" (Except.ok [])).2 rfl (Except.ok ()) (Except.ok [])⟩

/-- C9: a record whose `visible` field is absent is rendered (it passes the
`visible !== false` filter), and toggling it issues `update(id, {visible:
true})` — because `!undefined` is `true` — so after a successful toggle the
record carries `visible = true` and is still rendered rather than hidden. -/
theorem toggle_absent_visible_stays_visible (s : HookState) (id now : String)
    (r : Except ApiError (List Overlay)) (o : Overlay)
    (hf : s.overlays.find? (fun x => decide (x._id = id)) = some o)
    (hv : o.visible = none) :
    o ∈ getVisibleOverlays s ∧
    (toggleOverlayVisibility s id now (Except.ok ()) r).2 =
      [NetCall.put id { visible := some true }] ∧
    (∀ x ∈ (toggleOverlayVisibility s id now (Except.ok ()) r).1.overlays,
      x._id = id → x.visible = some true) ∧
    (∀ x ∈ (toggleOverlayVisibility s id now (Except.ok ()) r).1.overlays,
      x._id = id →
      x ∈ getVisibleOverlays (toggleOverlayVisibility s id now (Except.ok ()) r).1) := by
  have hmem : o ∈ s.overlays := List.mem_of_find?_eq_some hf
  have hp : togglePatch o = { visible := some true } := by
    simp [togglePatch, truthyVisible, hv]
  have key : ∀ x ∈ (toggleOverlayVisibility s id now (Except.ok ()) r).1.overlays,
      x._id = id → x.visible = some true := by
    intro x hx hxid
    unfold toggleOverlayVisibility at hx
    rw [hf] at hx
    dsimp only at hx
    rw [hp] at hx
    simp only [updateOverlay, List.mem_map] at hx
    obtain ⟨y, hy, hxy⟩ := hx
    by_cases hyid : y._id = id
    · rw [if_pos hyid] at hxy
      rw [← hxy]
      rfl
    · rw [if_neg hyid] at hxy
      rw [← hxy] at hxid
      exact absurd hxid hyid
  refine ⟨?_, ?_, key, ?_⟩
  · refine List.mem_filter.mpr ⟨hmem, ?_⟩
    simp [hv]
  · unfold toggleOverlayVisibility
    rw [hf]
    dsimp only
    rw [hp]
    rfl
  · intro x hx hxid
    refine List.mem_filter.mpr ⟨hx, ?_⟩
    simp [key x hx hxid]

/-- Witness for C9: a concrete record with no `visible` field is toggled to
`visible = true` and remains rendered. -/
theorem toggle_absent_visible_stays_visible_witness :
    (([({ exOverlay with visible := none } : Overlay)] : List Overlay).find?
        (fun x => decide (x._id = "A")) =
      some { exOverlay with visible := none }) ∧
    ({ exOverlay with visible := none } : Overlay).visible = none ∧
    (toggleOverlayVisibility
        { overlays := [{ exOverlay with visible := none }], loading := false,
          error := none }
        "A" "t1" (Except.ok ()) (Except.ok [])).2 =
      [NetCall.put "A" { visible := some true }] :=
  ⟨by decide, rfl,
   (toggle_absent_visible_stays_visible
      { overlays := [{ exOverlay with visible := none }], loading := false,
        error := none }
      "A" "t1" (Except.ok []) { exOverlay with visible := none }
      (by decide) rfl).2.1⟩
